import Mathlib

/-!
Verification of the fine-tuning notebook `Fine_Tuning_With_GPT_Neo.ipynb`.

The notebook is a linear script: it fetches 100 rows of the IMDb dataset
from the Hugging Face datasets-server, extracts texts and labels, tokenizes
with the GPT-Neo tokenizer (truncation to 512, padding to the longest
sequence in the batch), builds a Hugging Face `Dataset`, splits it 80/20,
configures a `GPTNeoForSequenceClassification` model with `num_labels=2`,
configures `TrainingArguments`, trains, and saves model and tokenizer to
`./fine_tuned_gpt_neo`.

The shallow embedding below models the JSON response schema, the two
list-comprehension extractions of cell 5 (with Python `KeyError`
propagation modelled by `Except`), the tokenizer call of cell 9, the
`train_test_split` of cell 11 (its randomness made explicit as a
permutation argument, since no seed is fixed), the model configuration of
cell 13, the training arguments of cell 15, and the train/save calls of
cell 17.  The external tokenizer encoder and the training loop itself are
parameters of the embedding (they belong to the `transformers` library,
not to this repository); the glue logic around them is modelled exactly.
-/

namespace FineTuneGPTNeo

/-- A JSON leaf value as it may appear in a `row` field of the datasets-server
response: the `text` and `label` fields can be strings or integers (for the
IMDb dataset the server serves `label` as an integer class id). -/
inductive JVal where
  | str (s : String)
  | int (n : Int)
deriving DecidableEq, Repr

/-- The inner `row` object of one element of the `rows` array.  Fields are
`Option`s because the program performs no schema validation: an absent field
models a missing JSON key (Python `KeyError` on access).  `extra` holds any
further fields of the object, which the program never reads. -/
structure RowData where
  text : Option String
  label : Option JVal
  extra : List (String × JVal)
deriving DecidableEq, Repr

/-- One element of the top-level `rows` array: it normally holds a `row`
object (plus fields such as `row_idx` and `truncated_cells`, collected in
`extra`, which the program never reads). -/
structure FetchedRow where
  row : Option RowData
  extra : List (String × JVal)
deriving DecidableEq, Repr

/-- The parsed JSON response of the datasets-server endpoint.  The program
reads only `rows`; the remaining top-level fields (`features`,
`num_rows_total`, ...) are collected in `extra`. -/
structure Response where
  rows : Option (List FetchedRow)
  extra : List (String × JVal)
deriving DecidableEq, Repr

/-- A Python exception raised by the script; the only one its own code can
raise is a `KeyError` from subscripting the parsed JSON. -/
inductive PyError where
  | keyError (key : String)
deriving DecidableEq, Repr

/-- Python list-comprehension semantics over a fallible element function:
elements are evaluated left to right and the first exception aborts the
whole comprehension. -/
def mapE (f : α → Except PyError β) : List α → Except PyError (List β)
  | [] => .ok []
  | a :: l =>
    match f a with
    | .error e => .error e
    | .ok b =>
      match mapE f l with
      | .error e => .error e
      | .ok bs => .ok (b :: bs)

/-- `row['row']['text']` for one element of the `rows` array (cell 5). -/
def getText (fr : FetchedRow) : Except PyError String :=
  match fr.row with
  | none => .error (.keyError "row")
  | some rd =>
    match rd.text with
    | none => .error (.keyError "text")
    | some t => .ok t

/-- `row['row']['label']` for one element of the `rows` array (cell 5). -/
def getLabel (fr : FetchedRow) : Except PyError JVal :=
  match fr.row with
  | none => .error (.keyError "row")
  | some rd =>
    match rd.label with
    | none => .error (.keyError "label")
    | some v => .ok v

/-- The label mapping of cell 5: `1 if row['row']['label'] == 'pos' else 0`.
Python `==` between an `int` and a `str` is `False`, so an integer label is
mapped to `0`. -/
def labelOf (v : JVal) : Nat := if v = .str "pos" then 1 else 0

/-- `texts = [row['row']['text'] for row in data['rows']]` (cell 5). -/
def extractTexts (data : Response) : Except PyError (List String) :=
  match data.rows with
  | none => .error (.keyError "rows")
  | some rs => mapE getText rs

/-- `labels = [1 if row['row']['label'] == 'pos' else 0 for row in data['rows']]`
(cell 5). -/
def extractLabels (data : Response) : Except PyError (List Nat) :=
  match data.rows with
  | none => .error (.keyError "rows")
  | some rs => mapE (fun fr => (getLabel fr).map labelOf) rs

/-- The GPT-Neo tokenizer as the script sees it: a vocabulary (token ids are
positions in this list, so `len(tokenizer)` is `vocab.length`), an optional
pad token, and the pretrained subword encoder, which is external library
behaviour and therefore a parameter of the model. -/
structure Tokenizer where
  vocab : List String
  padToken : Option String
  encode : String → List Nat

/-- `tokenizer.pad_token_id`: the vocabulary id of the pad token, when one
is set. -/
def Tokenizer.padTokenId (tok : Tokenizer) : Option Nat :=
  tok.padToken.map fun p => tok.vocab.indexOf p

/-- Cell 9: `if tokenizer.pad_token is None: tokenizer.add_special_tokens({'pad_token': '[PAD]'})`.
`add_special_tokens` sets the pad token and appends `'[PAD]'` to the
vocabulary when it is not already a known token. -/
def addPadIfMissing (tok : Tokenizer) : Tokenizer :=
  if tok.padToken.isNone then
    { tok with
      padToken := some "[PAD]"
      vocab := if "[PAD]" ∈ tok.vocab then tok.vocab else tok.vocab ++ ["[PAD]"] }
  else tok

/-- The batch encoding returned by the tokenizer call of cell 9. -/
structure Encodings where
  input_ids : List (List Nat)
  attention_mask : List (List Nat)
deriving DecidableEq, Repr

/-- The length every sequence of the batch is padded to: the length of the
longest (truncated) sequence. -/
def maxLen (l : List (List Nat)) : Nat :=
  l.foldr (fun ids m => max ids.length m) 0

/-- Cell 9: `tokenizer(texts, truncation=True, padding=True, max_length=512)`.
Each text is encoded and truncated to 512 tokens; all sequences are then
right-padded with the pad token to the longest (truncated) sequence in the
batch, with attention mask 1 on real tokens and 0 on padding. -/
def tokenizeBatch (tok : Tokenizer) (texts : List String) : Encodings :=
  let truncated := texts.map fun t => (tok.encode t).take 512
  let padId := tok.padTokenId.getD 0
  { input_ids := truncated.map fun ids => ids ++ List.replicate (maxLen truncated - ids.length) padId
    attention_mask :=
      truncated.map fun ids =>
        List.replicate ids.length 1 ++ List.replicate (maxLen truncated - ids.length) 0 }

/-- The Hugging Face `Dataset` built by `Dataset.from_dict` in cell 9: three
columns of equal row count. -/
structure HFDataset where
  input_ids : List (List Nat)
  attention_mask : List (List Nat)
  labels : List Nat
deriving DecidableEq, Repr

/-- `len(dataset)`: the number of rows. -/
def HFDataset.numRows (ds : HFDataset) : Nat := ds.input_ids.length

/-- Cell 9: `Dataset.from_dict({'input_ids': ..., 'attention_mask': ..., 'labels': ...})`. -/
def datasetFromDict (enc : Encodings) (labels : List Nat) : HFDataset :=
  { input_ids := enc.input_ids, attention_mask := enc.attention_mask, labels := labels }

/-- `Dataset.select`: the dataset restricted to the given row indices, in
order (all indices produced by `train_test_split` are in range). -/
def HFDataset.select (ds : HFDataset) (idx : List Nat) : HFDataset :=
  { input_ids := idx.map fun i => ds.input_ids.getD i []
    attention_mask := idx.map fun i => ds.attention_mask.getD i []
    labels := idx.map fun i => ds.labels.getD i 0 }

/-- The test-partition size of `train_test_split(test_size=0.2)`:
`ceil(test_size * n_samples)` in the `datasets` library, i.e. `⌈n/5⌉` (the
double `0.2` rounds to the same integer for every batch size the script can
produce, in particular for the 100 fetched rows). -/
def nTest (n : Nat) : Nat := (n + 4) / 5

/-- The row indices of the test split: with no `train_size` given the
library takes `permutation[:n_test]`. -/
def testIndices (n : Nat) (perm : List Nat) : List Nat :=
  (perm.take (nTest n))

/-- The row indices of the train split: `permutation[n_test : n_test + n_train]`
with `n_train = n_samples - n_test`. -/
def trainIndices (n : Nat) (perm : List Nat) : List Nat :=
  ((perm.drop (nTest n)).take (n - nTest n))

/-- Cell 11: `dataset.train_test_split(test_size=0.2)` followed by taking the
`'train'` and `'test'` entries.  No seed is fixed in the notebook, so the
shuffling permutation drawn by the library's random generator is an explicit
argument here.  Returns `(train_dataset, eval_dataset)`. -/
def train_test_split (ds : HFDataset) (perm : List Nat) : HFDataset × HFDataset :=
  let n := ds.numRows
  (ds.select (trainIndices n perm), ds.select (testIndices n perm))

/-- The model configuration: the fields of `model.config` the script touches. -/
structure ModelConfig where
  num_labels : Nat
  pad_token_id : Option Nat
deriving DecidableEq, Repr

/-- The `GPTNeoForSequenceClassification` model as the script sees it: its
config and the row count of its token-embedding table. -/
structure NeoModel where
  config : ModelConfig
  embeddingRows : Nat
deriving DecidableEq, Repr

/-- `GPTNeoForSequenceClassification.from_pretrained("EleutherAI/gpt-neo-125M", num_labels=2)`:
a fresh model whose embedding table has the pretrained vocabulary size and
whose config carries the requested label count; the pretrained GPT-Neo
config sets no pad token id. -/
def fromPretrained (baseVocabSize numLabels : Nat) : NeoModel :=
  { config := { num_labels := numLabels, pad_token_id := none }
    embeddingRows := baseVocabSize }

/-- `model.resize_token_embeddings(n)`. -/
def NeoModel.resizeTokenEmbeddings (m : NeoModel) (n : Nat) : NeoModel :=
  { m with embeddingRows := n }

/-- Cell 13: load the classification model, set
`model.config.pad_token_id = tokenizer.pad_token_id`, and
`model.resize_token_embeddings(len(tokenizer))`. -/
def configureModel (baseVocabSize : Nat) (tok : Tokenizer) : NeoModel :=
  let model := fromPretrained baseVocabSize 2
  let model := { model with config := { model.config with pad_token_id := tok.padTokenId } }
  model.resizeTokenEmbeddings tok.vocab.length

/-- The `TrainingArguments` of cell 15 (rates as exact rationals). -/
structure TrainingArguments where
  output_dir : String
  evaluation_strategy : String
  learning_rate : ℚ
  per_device_train_batch_size : Nat
  per_device_eval_batch_size : Nat
  num_train_epochs : Nat
  weight_decay : ℚ
  logging_dir : String
  logging_steps : Nat
  save_total_limit : Nat
deriving DecidableEq, Repr

/-- The literal training arguments of cell 15. -/
def trainingArgs : TrainingArguments :=
  { output_dir := "./results"
    evaluation_strategy := "epoch"
    learning_rate := 2 / 100000
    per_device_train_batch_size := 4
    per_device_eval_batch_size := 4
    num_train_epochs := 3
    weight_decay := 1 / 100
    logging_dir := "./logs"
    logging_steps := 10
    save_total_limit := 2 }

/-- The observable steps of the script, in the granularity of the glue
calls: the saving step of the notebook consists of the two
`save_pretrained` calls of cell 17, and `addPadToken` records the
conditional `add_special_tokens` call inside cell 9. -/
inductive Step where
  | fetch (url : String)
  | labelMap
  | addPadToken
  | tokenize
  | split
  | configModel
  | configTraining
  | train
  | saveModel (dir : String)
  | saveTokenizer (dir : String)
deriving DecidableEq, Repr

/-- Steps that persist final artifacts to disk. -/
def Step.isSave : Step → Bool
  | .saveModel _ => true
  | .saveTokenizer _ => true
  | _ => false

/-- The eight-step glue sequence of the spec; `addPadToken` is an internal
detail of the tokenization cell, not one of its steps. -/
def Step.isMainStep : Step → Bool
  | .addPadToken => false
  | _ => true

/-- The fixed datasets-server URL of cell 3. -/
def theUrl : String :=
  "https://datasets-server.huggingface.co/rows?dataset=stanfordnlp%2Fimdb&config=plain_text&split=train&offset=0&length=100"

/-- Everything the script receives from outside: the network (a map from
URL to parsed JSON response), the pretrained tokenizer and the pretrained
vocabulary size, the unseeded permutation drawn inside `train_test_split`,
and the training loop of the `Trainer` (external library behaviour). -/
structure Env where
  http : String → Response
  pretrainedTok : Tokenizer
  baseVocabSize : Nat
  perm : List Nat
  trainerTrain : NeoModel → TrainingArguments → HFDataset → HFDataset → NeoModel

/-- The values the script holds when it reaches the end of cell 17. -/
structure Final where
  train_dataset : HFDataset
  eval_dataset : HFDataset
  model : NeoModel
  tokenizer : Tokenizer
  args : TrainingArguments

/-- The outcome of one run: the final values (or the uncaught Python
exception), the ordered trace of completed steps, and the URLs requested. -/
structure RunResult where
  outcome : Except PyError Final
  trace : List Step
  requests : List String

/-- The whole notebook, cells 3 to 17 in order.  An exception aborts the
script: nothing catches it, so every later step is skipped. -/
def run (env : Env) : RunResult :=
  -- cell 3: one GET to the fixed URL, parsed as JSON
  let data := env.http theUrl
  let requests := [theUrl]
  let trace : List Step := [.fetch theUrl]
  -- cell 5: the two list comprehensions (texts first, then labels)
  match extractTexts data with
  | .error e => ⟨.error e, trace, requests⟩
  | .ok texts =>
    match extractLabels data with
    | .error e => ⟨.error e, trace, requests⟩
    | .ok labels =>
      let trace := trace ++ [.labelMap]
      -- cell 7: load the pretrained tokenizer
      let tok0 := env.pretrainedTok
      -- cell 9: conditional pad token, tokenize, build the dataset
      let tok := addPadIfMissing tok0
      let trace := trace ++ (if tok0.padToken.isNone then [Step.addPadToken] else [])
      let enc := tokenizeBatch tok texts
      let dataset := datasetFromDict enc labels
      let trace := trace ++ [.tokenize]
      -- cell 11: split
      let tts := train_test_split dataset env.perm
      let train_dataset := tts.1
      let eval_dataset := tts.2
      let trace := trace ++ [.split]
      -- cell 13: model configuration
      let model := configureModel env.baseVocabSize tok
      let trace := trace ++ [.configModel]
      -- cell 15: training arguments
      let args := trainingArgs
      let trace := trace ++ [.configTraining]
      -- cell 17: train, then save model and tokenizer
      let trained := env.trainerTrain model args train_dataset eval_dataset
      let trace := trace ++
        [.train, .saveModel "./fine_tuned_gpt_neo", .saveTokenizer "./fine_tuned_gpt_neo"]
      ⟨.ok ⟨train_dataset, eval_dataset, trained, tok, args⟩, trace, requests⟩

/-- The part of the response the extraction code of cell 5 can observe: for
each element of `rows`, whether the `row` key is present and, when it is,
its `text` and `label` fields. -/
def projRow (fr : FetchedRow) : Option (Option String × Option JVal) :=
  fr.row.map fun rd => (rd.text, rd.label)

/-- The observable projection of a whole response. -/
def projResponse (r : Response) : Option (List (Option (Option String × Option JVal))) :=
  r.rows.map fun rs => rs.map projRow

/-- The schema defects of C4: the top-level `rows` key is absent, or some
row lacks the `row` key or its `text` or `label` field. -/
def badSchema (r : Response) : Bool :=
  match r.rows with
  | none => true
  | some rs =>
    rs.any fun fr =>
      match fr.row with
      | none => true
      | some rd => rd.text.isNone || rd.label.isNone

/-- The step trace of a run in which extraction succeeds: `padAdded` records
whether the pad-token conditional of cell 9 fired. -/
def mainTrace (padAdded : Bool) : List Step :=
  [Step.fetch theUrl, Step.labelMap]
    ++ (if padAdded then [Step.addPadToken] else [])
    ++ [Step.tokenize, Step.split, Step.configModel, Step.configTraining,
        Step.train, Step.saveModel "./fine_tuned_gpt_neo", Step.saveTokenizer "./fine_tuned_gpt_neo"]

/-- The labels column of the train split of a finished run (`none` when the
run aborted with an exception). -/
def trainLabels (rr : RunResult) : Option (List Nat) :=
  match rr.outcome with
  | .ok f => some f.train_dataset.labels
  | .error _ => none

/-! Concrete test fixtures, used to instantiate the claim theorems. -/

/-- A well-formed row carrying the string label `'pos'`. -/
def rowPos : FetchedRow :=
  { row := some { text := some "great film", label := some (.str "pos"), extra := [] }
    extra := [("row_idx", .int 0)] }

/-- A well-formed row carrying the integer label `0` (as the datasets-server
actually serves IMDb labels). -/
def rowNeg : FetchedRow :=
  { row := some { text := some "awful film", label := some (.int 0), extra := [] }
    extra := [("row_idx", .int 1)] }

/-- A well-formed two-row response. -/
def respGood : Response := { rows := some [rowPos, rowNeg], extra := [] }

/-- The same response with different unread fields at every level. -/
def respGoodExtra : Response :=
  { rows := some
      [{ rowPos with extra := [("truncated_cells", .int 7)] },
       { rowNeg with extra := [] }]
    extra := [("num_rows_total", .int 25000)] }

/-- A response whose top-level `rows` key is absent. -/
def respNoRows : Response := { rows := none, extra := [] }

/-- A response in which the second row lacks the `label` field. -/
def respNoLabel : Response :=
  { rows := some [rowPos, { row := some { text := some "meh", label := none, extra := [] }, extra := [] }]
    extra := [] }

/-- A pretrained tokenizer without a pad token (the GPT-Neo case). -/
def tokNoPad : Tokenizer :=
  { vocab := ["a", "b"], padToken := none, encode := fun s => List.replicate s.length 1 }

/-- A pretrained tokenizer that already has a pad token. -/
def tokWithPad : Tokenizer :=
  { vocab := ["a", "b", "<p>"], padToken := some "<p>", encode := fun s => List.replicate s.length 1 }

/-- A trivial stand-in for the external training loop. -/
def idTrain : NeoModel → TrainingArguments → HFDataset → HFDataset → NeoModel :=
  fun m _ _ _ => m

/-- An environment serving the given response on every URL. -/
def mkEnv (r : Response) (tok : Tokenizer) (perm : List Nat) : Env :=
  { http := fun _ => r
    pretrainedTok := tok
    baseVocabSize := 50257
    perm := perm
    trainerTrain := idTrain }

/-! Helper lemmas. -/

theorem mapE_ok_forall₂ {α β : Type} {f : α → Except PyError β} :
    ∀ {l : List α} {bs : List β}, mapE f l = .ok bs →
      List.Forall₂ (fun a b => f a = .ok b) l bs := by
  intro l
  induction l with
  | nil =>
    intro bs h
    simp only [mapE] at h
    cases h
    exact List.Forall₂.nil
  | cons a l ih =>
    intro bs h
    simp only [mapE] at h
    cases hfa : f a with
    | error e => rw [hfa] at h; cases h
    | ok b =>
      rw [hfa] at h
      cases hml : mapE f l with
      | error e => rw [hml] at h; cases h
      | ok bs' =>
        rw [hml] at h
        cases h
        exact List.Forall₂.cons hfa (ih hml)

theorem mapE_ok_length {α β : Type} {f : α → Except PyError β} {l : List α} {bs : List β}
    (h : mapE f l = .ok bs) : bs.length = l.length :=
  ((mapE_ok_forall₂ h).length_eq).symm

theorem forall₂_mem_right {α β : Type} {R : α → β → Prop} {l : List α} {bs : List β}
    (h : List.Forall₂ R l bs) : ∀ b ∈ bs, ∃ a ∈ l, R a b := by
  induction h with
  | nil => intro b hb; cases hb
  | cons hR _ ih =>
    intro b hb
    rcases List.mem_cons.mp hb with rfl | hb'
    · exact ⟨_, List.mem_cons_self _ _, hR⟩
    · obtain ⟨a, ha, hR'⟩ := ih b hb'
      exact ⟨a, List.mem_cons_of_mem _ ha, hR'⟩

theorem forall₂_mem_left {α β : Type} {R : α → β → Prop} {l : List α} {bs : List β}
    (h : List.Forall₂ R l bs) : ∀ a ∈ l, ∃ b ∈ bs, R a b := by
  induction h with
  | nil => intro a ha; cases ha
  | cons hR _ ih =>
    intro a ha
    rcases List.mem_cons.mp ha with rfl | ha'
    · exact ⟨_, List.mem_cons_self _ _, hR⟩
    · obtain ⟨b, hb, hR'⟩ := ih a ha'
      exact ⟨b, List.mem_cons_of_mem _ hb, hR'⟩

theorem mapE_ok_mem {α β : Type} {f : α → Except PyError β} {l : List α} {bs : List β}
    (h : mapE f l = .ok bs) : ∀ b ∈ bs, ∃ a ∈ l, f a = .ok b :=
  forall₂_mem_right (mapE_ok_forall₂ h)

theorem mapE_ok_of_mem {α β : Type} {f : α → Except PyError β} {l : List α} {bs : List β}
    (h : mapE f l = .ok bs) : ∀ a ∈ l, ∃ b ∈ bs, f a = .ok b :=
  forall₂_mem_left (mapE_ok_forall₂ h)

theorem mapE_error_of_mem {α β : Type} {f : α → Except PyError β} {a : α} {e : PyError} :
    ∀ {l : List α}, a ∈ l → f a = .error e → ∃ e', mapE f l = .error e' := by
  intro l
  induction l with
  | nil => intro h; cases h
  | cons x l ih =>
    intro hmem hfa
    rcases List.mem_cons.mp hmem with rfl | hmem'
    · exact ⟨e, by simp [mapE, hfa]⟩
    · cases hfx : f x with
      | error e'' => exact ⟨e'', by simp [mapE, hfx]⟩
      | ok b =>
        obtain ⟨e', hml⟩ := ih hmem' hfa
        exact ⟨e', by simp [mapE, hfx, hml]⟩

theorem mapE_congr_of_map_eq {α β γ : Type} {f : α → Except PyError β} {g : α → γ}
    (hfg : ∀ a₁ a₂, g a₁ = g a₂ → f a₁ = f a₂) :
    ∀ {l₁ l₂ : List α}, l₁.map g = l₂.map g → mapE f l₁ = mapE f l₂ := by
  intro l₁
  induction l₁ with
  | nil =>
    intro l₂ h
    cases l₂ with
    | nil => rfl
    | cons b l₂' => simp at h
  | cons a l ih =>
    intro l₂ h
    cases l₂ with
    | nil => simp at h
    | cons b l₂' =>
      simp only [List.map_cons, List.cons.injEq] at h
      have h1 : f a = f b := hfg _ _ h.1
      have h2 : mapE f l = mapE f l₂' := ih h.2
      simp only [mapE, h1, h2]

theorem mapE_zip_forall₂ {α β γ : Type} {f : α → Except PyError β} {g : α → Except PyError γ} :
    ∀ {l : List α} {bs : List β} {cs : List γ},
      mapE f l = .ok bs → mapE g l = .ok cs →
      List.Forall₂ (fun a bc => f a = .ok bc.1 ∧ g a = .ok bc.2) l (bs.zip cs) := by
  intro l
  induction l with
  | nil =>
    intro bs cs hb hc
    simp only [mapE] at hb hc
    cases hb; cases hc
    exact List.Forall₂.nil
  | cons a l ih =>
    intro bs cs hb hc
    simp only [mapE] at hb hc
    cases hfa : f a with
    | error e => rw [hfa] at hb; cases hb
    | ok b =>
      rw [hfa] at hb
      cases hmb : mapE f l with
      | error e => rw [hmb] at hb; cases hb
      | ok bs' =>
        rw [hmb] at hb
        cases hb
        cases hga : g a with
        | error e => rw [hga] at hc; cases hc
        | ok c =>
          rw [hga] at hc
          cases hmc : mapE g l with
          | error e => rw [hmc] at hc; cases hc
          | ok cs' =>
            rw [hmc] at hc
            cases hc
            exact List.Forall₂.cons ⟨hfa, hga⟩ (ih hmb hmc)

theorem getText_eq_of_projRow {fr₁ fr₂ : FetchedRow} (h : projRow fr₁ = projRow fr₂) :
    getText fr₁ = getText fr₂ := by
  cases fr₁ with
  | mk row₁ e₁ =>
    cases fr₂ with
    | mk row₂ e₂ =>
      cases row₁ with
      | none => cases row₂ with
        | none => rfl
        | some rd₂ => simp [projRow] at h
      | some rd₁ => cases row₂ with
        | none => simp [projRow] at h
        | some rd₂ =>
          simp only [projRow] at h
          simp only [Option.map, Option.some.injEq, Prod.mk.injEq] at h
          simp only [getText, h.1]

theorem getLabel_eq_of_projRow {fr₁ fr₂ : FetchedRow} (h : projRow fr₁ = projRow fr₂) :
    getLabel fr₁ = getLabel fr₂ := by
  cases fr₁ with
  | mk row₁ e₁ =>
    cases fr₂ with
    | mk row₂ e₂ =>
      cases row₁ with
      | none => cases row₂ with
        | none => rfl
        | some rd₂ => simp [projRow] at h
      | some rd₁ => cases row₂ with
        | none => simp [projRow] at h
        | some rd₂ =>
          simp only [projRow] at h
          simp only [Option.map, Option.some.injEq, Prod.mk.injEq] at h
          simp only [getLabel, h.2]

theorem extractTexts_eq_of_proj {r₁ r₂ : Response}
    (h : projResponse r₁ = projResponse r₂) : extractTexts r₁ = extractTexts r₂ := by
  cases hr₁ : r₁.rows with
  | none =>
    cases hr₂ : r₂.rows with
    | none => simp [extractTexts, hr₁, hr₂]
    | some rs₂ => simp [projResponse, hr₁, hr₂] at h
  | some rs₁ =>
    cases hr₂ : r₂.rows with
    | none => simp [projResponse, hr₁, hr₂] at h
    | some rs₂ =>
      simp only [projResponse, hr₁, hr₂] at h
      simp only [Option.map, Option.some.injEq] at h
      simp only [extractTexts, hr₁, hr₂]
      exact mapE_congr_of_map_eq (fun a₁ a₂ => getText_eq_of_projRow) h

theorem extractLabels_eq_of_proj {r₁ r₂ : Response}
    (h : projResponse r₁ = projResponse r₂) : extractLabels r₁ = extractLabels r₂ := by
  cases hr₁ : r₁.rows with
  | none =>
    cases hr₂ : r₂.rows with
    | none => simp [extractLabels, hr₁, hr₂]
    | some rs₂ => simp [projResponse, hr₁, hr₂] at h
  | some rs₁ =>
    cases hr₂ : r₂.rows with
    | none => simp [projResponse, hr₁, hr₂] at h
    | some rs₂ =>
      simp only [projResponse, hr₁, hr₂] at h
      simp only [Option.map, Option.some.injEq] at h
      simp only [extractLabels, hr₁, hr₂]
      exact mapE_congr_of_map_eq
        (fun a₁ a₂ ha => by rw [getLabel_eq_of_projRow ha]) h

theorem length_le_maxLen {x : List Nat} :
    ∀ {l : List (List Nat)}, x ∈ l → x.length ≤ maxLen l := by
  intro l
  induction l with
  | nil => intro h; cases h
  | cons y l ih =>
    intro h
    rcases List.mem_cons.mp h with rfl | h'
    · exact le_max_left _ _ |>.trans_eq rfl
    · exact (ih h').trans (le_max_right _ _)

theorem maxLen_le {k : Nat} :
    ∀ {l : List (List Nat)}, (∀ x ∈ l, x.length ≤ k) → maxLen l ≤ k := by
  intro l
  induction l with
  | nil => intro _; exact Nat.zero_le k
  | cons y l ih =>
    intro h
    simp only [maxLen, List.foldr_cons]
    exact max_le (h y (List.mem_cons_self _ _)) (ih fun x hx => h x (List.mem_cons_of_mem _ hx))

theorem map_getD_range {α : Type} (d : α) :
    ∀ (l : List α), (List.range l.length).map (fun i => l.getD i d) = l := by
  intro l
  induction l with
  | nil => simp
  | cons a l ih =>
    rw [List.length_cons, List.range_succ_eq_map, List.map_cons, List.map_map]
    have hfun : ((fun i => (a :: l).getD i d) ∘ Nat.succ) = fun i => l.getD i d := by
      funext i
      simp [List.getD_cons_succ]
    rw [List.getD_cons_zero, hfun, ih]

theorem getText_ok_iff {fr : FetchedRow} {t : String} :
    getText fr = .ok t ↔ ∃ rd, fr.row = some rd ∧ rd.text = some t := by
  cases hrow : fr.row with
  | none => simp [getText, hrow]
  | some rd =>
    cases htext : rd.text with
    | none => simp [getText, hrow, htext]
    | some t' => simp [getText, hrow, htext]

theorem getLabel_ok_iff {fr : FetchedRow} {v : JVal} :
    getLabel fr = .ok v ↔ ∃ rd, fr.row = some rd ∧ rd.label = some v := by
  cases hrow : fr.row with
  | none => simp [getLabel, hrow]
  | some rd =>
    cases hlab : rd.label with
    | none => simp [getLabel, hrow, hlab]
    | some v' => simp [getLabel, hrow, hlab]

theorem run_requests (env : Env) : (run env).requests = [theUrl] := by
  simp only [run]
  cases extractTexts (env.http theUrl) with
  | error e => rfl
  | ok texts =>
    cases extractLabels (env.http theUrl) with
    | error e => rfl
    | ok labels => rfl

theorem run_trace_of_ok (env : Env) {texts : List String} {labels : List Nat}
    (ht : extractTexts (env.http theUrl) = .ok texts)
    (hl : extractLabels (env.http theUrl) = .ok labels) :
    (run env).trace = mainTrace env.pretrainedTok.padToken.isNone := by
  simp only [run, ht, hl, mainTrace]
  cases env.pretrainedTok.padToken <;> simp

theorem run_of_extractTexts_error (env : Env) {e : PyError}
    (ht : extractTexts (env.http theUrl) = .error e) :
    run env = ⟨.error e, [Step.fetch theUrl], [theUrl]⟩ := by
  simp only [run, ht]

theorem run_of_extractLabels_error (env : Env) {texts : List String} {e : PyError}
    (ht : extractTexts (env.http theUrl) = .ok texts)
    (hl : extractLabels (env.http theUrl) = .error e) :
    run env = ⟨.error e, [Step.fetch theUrl], [theUrl]⟩ := by
  simp only [run, ht, hl]

theorem not_both_ok_of_badSchema {r : Response} (hb : badSchema r = true)
    {texts : List String} {labels : List Nat}
    (ht : extractTexts r = .ok texts) (hl : extractLabels r = .ok labels) : False := by
  cases hr : r.rows with
  | none => simp [extractTexts, hr] at ht
  | some rs =>
    simp only [badSchema, hr] at hb
    obtain ⟨fr, hfr, hbad⟩ := List.any_eq_true.mp hb
    simp only [extractTexts, hr] at ht
    simp only [extractLabels, hr] at hl
    obtain ⟨t, _, hget⟩ := mapE_ok_of_mem ht fr hfr
    obtain ⟨l, _, hgl⟩ := mapE_ok_of_mem hl fr hfr
    obtain ⟨rd, hrow, htext⟩ := getText_ok_iff.mp hget
    rw [hrow] at hbad
    cases hlab : rd.label with
    | none => simp [getLabel, hrow, hlab, Except.map] at hgl
    | some v => simp [htext, hlab] at hbad

/-! The claims. -/

/-- C1: for every row of the fetched response's `rows` array, the extracted
label is `1` exactly when the row's `row.label` field equals the string
`'pos'` and `0` otherwise; hence every element of the labels list is `0` or
`1`, a valid class index for the model, which `configureModel` builds with
`num_labels = 2`. -/
theorem C1_label_mapping_binary (r : Response) (rs : List FetchedRow) (ls : List Nat)
    (hrows : r.rows = some rs) (hok : extractLabels r = .ok ls) :
    List.Forall₂
      (fun fr l => ∃ v, getLabel fr = .ok v ∧ l = (if v = JVal.str "pos" then 1 else 0))
      rs ls
    ∧ (∀ l ∈ ls, l = 0 ∨ l = 1)
    ∧ (∀ (bv : Nat) (tok : Tokenizer),
        (configureModel bv tok).config.num_labels = 2 ∧
        ∀ l ∈ ls, l < (configureModel bv tok).config.num_labels) := by
  simp only [extractLabels, hrows] at hok
  have hF := mapE_ok_forall₂ hok
  have hF' : List.Forall₂
      (fun fr l => ∃ v, getLabel fr = .ok v ∧ l = (if v = JVal.str "pos" then 1 else 0))
      rs ls := by
    refine hF.imp ?_
    intro fr l h
    cases hg : getLabel fr with
    | error e => rw [hg] at h; simp [Except.map] at h
    | ok v =>
      rw [hg] at h
      simp only [Except.map, Except.ok.injEq] at h
      exact ⟨v, rfl, by rw [← h]; rfl⟩
  have hbin : ∀ l ∈ ls, l = 0 ∨ l = 1 := by
    intro l hl
    obtain ⟨fr, _, v, _, hval⟩ := forall₂_mem_right hF' l hl
    by_cases hv : v = JVal.str "pos"
    · right; simp [hv] at hval; exact hval
    · left; simp [hv] at hval; exact hval
  refine ⟨hF', hbin, ?_⟩
  intro bv tok
  refine ⟨rfl, ?_⟩
  intro l hl
  have h2 : (configureModel bv tok).config.num_labels = 2 := rfl
  rw [h2]
  rcases hbin l hl with rfl | rfl <;> decide

/-- Witness for C1 at the concrete two-row response `respGood`, whose first
row is labelled with the string `'pos'` and whose second with the integer
`0`. -/
theorem C1_label_mapping_binary_witness :
    respGood.rows = some [rowPos, rowNeg] ∧
    extractLabels respGood = .ok [1, 0] ∧
    (∀ l ∈ [1, 0], l = 0 ∨ l = 1) := by
  refine ⟨rfl, rfl, ?_⟩
  exact (C1_label_mapping_binary respGood [rowPos, rowNeg] [1, 0] rfl rfl).2.1

/-- C4: the script validates nothing and retries nothing: whenever the
fetched response lacks the `rows` key, or some row lacks the `row` key or
its `text` or `label` field, the extraction of cell 5 raises a `KeyError`
that nothing catches, so the trace stops at the fetch and no tokenize,
split, train or save step executes. -/
theorem C4_no_validation_error_propagates (env : Env)
    (hb : badSchema (env.http theUrl) = true) :
    (∃ e, (run env).outcome = .error e) ∧
    (run env).trace = [Step.fetch theUrl] ∧
    Step.tokenize ∉ (run env).trace ∧
    Step.split ∉ (run env).trace ∧
    Step.train ∉ (run env).trace ∧
    (∀ s ∈ (run env).trace, s.isSave = false) := by
  cases ht : extractTexts (env.http theUrl) with
  | error e =>
    rw [run_of_extractTexts_error env ht]
    refine ⟨⟨e, rfl⟩, rfl, ?_, ?_, ?_, ?_⟩
    · show Step.tokenize ∉ [Step.fetch theUrl]; decide
    · show Step.split ∉ [Step.fetch theUrl]; decide
    · show Step.train ∉ [Step.fetch theUrl]; decide
    · show ∀ s ∈ [Step.fetch theUrl], s.isSave = false; decide
  | ok texts =>
    cases hl : extractLabels (env.http theUrl) with
    | error e =>
      rw [run_of_extractLabels_error env ht hl]
      refine ⟨⟨e, rfl⟩, rfl, ?_, ?_, ?_, ?_⟩
      · show Step.tokenize ∉ [Step.fetch theUrl]; decide
      · show Step.split ∉ [Step.fetch theUrl]; decide
      · show Step.train ∉ [Step.fetch theUrl]; decide
      · show ∀ s ∈ [Step.fetch theUrl], s.isSave = false; decide
    | ok labels => exact absurd (not_both_ok_of_badSchema hb ht hl) (by simp)

/-- Witness for C4 at a concrete response missing the top-level `rows` key. -/
theorem C4_no_validation_error_propagates_witness :
    badSchema respNoRows = true ∧
    (run (mkEnv respNoRows tokNoPad [0])).trace = [Step.fetch theUrl] := by
  refine ⟨rfl, ?_⟩
  exact (C4_no_validation_error_propagates (mkEnv respNoRows tokNoPad [0]) rfl).2.1

/-- C2: whenever the fetched data passes extraction, the run performs
exactly the glue sequence data fetch, label mapping, tokenization,
train/eval split, model configuration, training configuration, training,
saving (the saving step being the model save followed by the tokenizer
save), in this order with no step repeated; the trace is restricted to the
main steps because the conditional pad-token addition is an internal detail
of the tokenization cell. -/
theorem C2_step_sequence (env : Env) {texts : List String} {labels : List Nat}
    (ht : extractTexts (env.http theUrl) = .ok texts)
    (hl : extractLabels (env.http theUrl) = .ok labels) :
    ((run env).trace.filter Step.isMainStep) =
      [Step.fetch theUrl, Step.labelMap, Step.tokenize, Step.split, Step.configModel,
       Step.configTraining, Step.train, Step.saveModel "./fine_tuned_gpt_neo",
       Step.saveTokenizer "./fine_tuned_gpt_neo"]
    ∧ ((run env).trace.filter Step.isMainStep).Nodup := by
  rw [run_trace_of_ok env ht hl]
  cases env.pretrainedTok.padToken with
  | none => exact ⟨by decide, by decide⟩
  | some p =>
    rw [show (some p).isNone = false from rfl]
    exact ⟨by decide, by decide⟩

/-- Witness for C2 at a concrete environment serving `respGood`. -/
theorem C2_step_sequence_witness :
    extractTexts respGood = .ok ["great film", "awful film"] ∧
    ((run (mkEnv respGood tokNoPad [0, 1])).trace.filter Step.isMainStep) =
      [Step.fetch theUrl, Step.labelMap, Step.tokenize, Step.split, Step.configModel,
       Step.configTraining, Step.train, Step.saveModel "./fine_tuned_gpt_neo",
       Step.saveTokenizer "./fine_tuned_gpt_neo"] := by
  refine ⟨rfl, ?_⟩
  exact (C2_step_sequence (mkEnv respGood tokNoPad [0, 1]) rfl rfl).1

/-- C3: the run issues exactly one outbound GET, to the fixed
datasets-server URL, and its entire behaviour depends on the response only
through the `rows[].row.text` and `rows[].row.label` fields (including
their presence): two responses with equal projections yield identical
runs. -/
theorem C3_single_get_only_row_fields (http₁ http₂ : String → Response)
    (ptok : Tokenizer) (bv : Nat) (perm : List Nat)
    (tf : NeoModel → TrainingArguments → HFDataset → HFDataset → NeoModel)
    (hproj : projResponse (http₁ theUrl) = projResponse (http₂ theUrl)) :
    (run ⟨http₁, ptok, bv, perm, tf⟩).requests = [theUrl] ∧
    run ⟨http₁, ptok, bv, perm, tf⟩ = run ⟨http₂, ptok, bv, perm, tf⟩ := by
  refine ⟨run_requests _, ?_⟩
  have hT := extractTexts_eq_of_proj hproj
  have hL := extractLabels_eq_of_proj hproj
  simp only [run]
  rw [hT, hL]

/-- Witness for C3: the same rows served with different unread fields at
every level produce byte-identical run results. -/
theorem C3_single_get_only_row_fields_witness :
    (run (mkEnv respGood tokNoPad [0, 1])).requests = [theUrl] ∧
    run (mkEnv respGood tokNoPad [0, 1]) = run (mkEnv respGoodExtra tokNoPad [0, 1]) := by
  exact C3_single_get_only_row_fields (fun _ => respGood) (fun _ => respGoodExtra)
    tokNoPad 50257 [0, 1] idTrain (by decide)

/-- C7: whenever extraction succeeds, the run ends with training followed by
the two `save_pretrained` calls, both targeting `./fine_tuned_gpt_neo`, and
no save of final artifacts precedes or interleaves with training. -/
theorem C7_save_after_train (env : Env) {texts : List String} {labels : List Nat}
    (ht : extractTexts (env.http theUrl) = .ok texts)
    (hl : extractLabels (env.http theUrl) = .ok labels) :
    ∃ pre, (run env).trace =
        pre ++ [Step.train, Step.saveModel "./fine_tuned_gpt_neo",
                Step.saveTokenizer "./fine_tuned_gpt_neo"]
      ∧ ∀ s ∈ pre, s.isSave = false ∧ s ≠ Step.train := by
  rw [run_trace_of_ok env ht hl]
  cases env.pretrainedTok.padToken with
  | none =>
    refine ⟨[Step.fetch theUrl, Step.labelMap, Step.addPadToken, Step.tokenize, Step.split,
             Step.configModel, Step.configTraining], ?_, ?_⟩
    · decide
    · decide
  | some p =>
    rw [show (some p).isNone = false from rfl]
    refine ⟨[Step.fetch theUrl, Step.labelMap, Step.tokenize, Step.split,
             Step.configModel, Step.configTraining], ?_, ?_⟩
    · decide
    · decide

/-- Witness for C7 at a concrete environment serving `respGood`. -/
theorem C7_save_after_train_witness :
    extractLabels respGood = .ok [1, 0] ∧
    ∃ pre, (run (mkEnv respGood tokNoPad [0, 1])).trace =
        pre ++ [Step.train, Step.saveModel "./fine_tuned_gpt_neo",
                Step.saveTokenizer "./fine_tuned_gpt_neo"]
      ∧ ∀ s ∈ pre, s.isSave = false ∧ s ≠ Step.train := by
  refine ⟨rfl, ?_⟩
  exact C7_save_after_train (mkEnv respGood tokNoPad [0, 1]) rfl rfl

/-- C5: the dataset built in cell 9 is well-formed: all three columns have
one entry per fetched row; the i-th text and the i-th label come from the
same source row, in order; and in every example the `input_ids` and
`attention_mask` sequences have equal length, at most 512. -/
theorem C5_dataset_well_formed (r : Response) (rs : List FetchedRow)
    (texts : List String) (labels : List Nat) (tok : Tokenizer)
    (hrows : r.rows = some rs)
    (ht : extractTexts r = .ok texts) (hl : extractLabels r = .ok labels) :
    (datasetFromDict (tokenizeBatch tok texts) labels).input_ids.length = rs.length ∧
    (datasetFromDict (tokenizeBatch tok texts) labels).attention_mask.length = rs.length ∧
    (datasetFromDict (tokenizeBatch tok texts) labels).labels.length = rs.length ∧
    List.Forall₂
      (fun fr tl => ∃ rd v, fr.row = some rd ∧ rd.text = some tl.1 ∧
        rd.label = some v ∧ tl.2 = labelOf v)
      rs (texts.zip labels) ∧
    List.Forall₂ (fun ids mask => ids.length = mask.length ∧ ids.length ≤ 512)
      (datasetFromDict (tokenizeBatch tok texts) labels).input_ids
      (datasetFromDict (tokenizeBatch tok texts) labels).attention_mask := by
  simp only [extractTexts, hrows] at ht
  simp only [extractLabels, hrows] at hl
  have hTlen : texts.length = rs.length := mapE_ok_length ht
  have hLlen : labels.length = rs.length := mapE_ok_length hl
  refine ⟨?_, ?_, ?_, ?_, ?_⟩
  · simp [datasetFromDict, tokenizeBatch, hTlen]
  · simp [datasetFromDict, tokenizeBatch, hTlen]
  · simp [datasetFromDict, hLlen]
  · refine (mapE_zip_forall₂ ht hl).imp ?_
    intro fr tl h
    obtain ⟨rd, hrow, htext⟩ := getText_ok_iff.mp h.1
    have h2 := h.2
    cases hg : getLabel fr with
    | error e => rw [hg] at h2; simp [Except.map] at h2
    | ok v =>
      rw [hg] at h2
      simp only [Except.map, Except.ok.injEq] at h2
      obtain ⟨rd', hrow', hlab⟩ := getLabel_ok_iff.mp hg
      rw [hrow] at hrow'
      cases hrow'
      exact ⟨rd, v, hrow, htext, hlab, h2.symm⟩
  · simp only [datasetFromDict, tokenizeBatch]
    rw [List.forall₂_map_left_iff, List.forall₂_map_right_iff, List.forall₂_same]
    intro x hx
    have hx512 : x.length ≤ 512 := by
      obtain ⟨t, _, rfl⟩ := List.mem_map.mp hx
      rw [List.length_take]
      exact Nat.min_le_left _ _
    have hxM : x.length ≤ maxLen (texts.map fun t => (tok.encode t).take 512) :=
      length_le_maxLen hx
    have hM512 : maxLen (texts.map fun t => (tok.encode t).take 512) ≤ 512 := by
      refine maxLen_le ?_
      intro y hy
      obtain ⟨t, _, rfl⟩ := List.mem_map.mp hy
      rw [List.length_take]
      exact Nat.min_le_left _ _
    constructor
    · simp [List.length_append, List.length_replicate]
    · simp only [List.length_append, List.length_replicate]
      omega

/-- Witness for C5 at the concrete two-row response `respGood` and the
pad-free tokenizer. -/
theorem C5_dataset_well_formed_witness :
    extractTexts respGood = .ok ["great film", "awful film"] ∧
    (datasetFromDict (tokenizeBatch tokNoPad ["great film", "awful film"]) [1, 0]).labels.length
      = [rowPos, rowNeg].length ∧
    List.Forall₂ (fun ids mask => ids.length = mask.length ∧ ids.length ≤ 512)
      (datasetFromDict (tokenizeBatch tokNoPad ["great film", "awful film"]) [1, 0]).input_ids
      (datasetFromDict (tokenizeBatch tokNoPad ["great film", "awful film"]) [1, 0]).attention_mask := by
  have h := C5_dataset_well_formed respGood [rowPos, rowNeg]
    ["great film", "awful film"] [1, 0] tokNoPad rfl rfl rfl
  exact ⟨rfl, h.2.2.1, h.2.2.2.2⟩

/-- C6: with the 100 fetched rows, `train_test_split(test_size=0.2)` sends
20 examples to the eval split and 80 to the train split; the index sets of
the two splits are disjoint and together are exactly the 100 row indices,
and the two label columns together are a permutation of the original label
column. -/
theorem C6_split_partition (ds : HFDataset) (perm : List Nat)
    (hn : ds.numRows = 100) (hlab : ds.labels.length = 100)
    (hp : perm.Perm (List.range 100)) :
    (train_test_split ds perm).2.numRows = 20 ∧
    (train_test_split ds perm).1.numRows = 80 ∧
    List.Disjoint (testIndices 100 perm) (trainIndices 100 perm) ∧
    (testIndices 100 perm ++ trainIndices 100 perm).Perm (List.range 100) ∧
    ((train_test_split ds perm).2.labels ++ (train_test_split ds perm).1.labels).Perm
      ds.labels := by
  have hlen : perm.length = 100 := by
    rw [hp.length_eq, List.length_range]
  have hnt : nTest 100 = 20 := rfl
  have hdroplen : (perm.drop (nTest 100)).length = 80 := by
    rw [List.length_drop, hlen, hnt]
  have htrain : trainIndices 100 perm = perm.drop (nTest 100) := by
    unfold trainIndices
    rw [show (100 - nTest 100) = 80 from rfl]
    exact List.take_of_length_le (le_of_eq hdroplen)
  have happend : testIndices 100 perm ++ trainIndices 100 perm = perm := by
    rw [htrain]
    exact List.take_append_drop _ _
  have hpermquad : (testIndices 100 perm ++ trainIndices 100 perm).Perm (List.range 100) := by
    rw [happend]; exact hp
  have hnodup : perm.Nodup := hp.symm.nodup (List.nodup_range 100)
  have hdisj : List.Disjoint (testIndices 100 perm) (trainIndices 100 perm) := by
    apply List.disjoint_of_nodup_append
    rw [happend]
    exact hnodup
  have hn' : ds.input_ids.length = 100 := hn
  refine ⟨?_, ?_, hdisj, hpermquad, ?_⟩
  · simp only [train_test_split, HFDataset.numRows, HFDataset.select, List.length_map,
      testIndices, List.length_take, hn', hlen, hnt]
    omega
  · simp only [train_test_split, HFDataset.numRows, HFDataset.select, List.length_map,
      hn', htrain, hdroplen]
  · have hsel : (train_test_split ds perm).2.labels ++ (train_test_split ds perm).1.labels
        = (testIndices 100 perm ++ trainIndices 100 perm).map (fun i => ds.labels.getD i 0) := by
      simp [train_test_split, HFDataset.select, hn, List.map_append]
    rw [hsel]
    have := (hpermquad.map (fun i => ds.labels.getD i 0))
    refine this.trans ?_
    have h100 : (100 : Nat) = ds.labels.length := hlab.symm
    rw [h100, map_getD_range]

/-- Witness for C6 at a concrete 100-row dataset and the identity
permutation. -/
theorem C6_split_partition_witness :
    (train_test_split
        ⟨List.replicate 100 [], List.replicate 100 [], List.range 100⟩
        (List.range 100)).2.numRows = 20 ∧
    (train_test_split
        ⟨List.replicate 100 [], List.replicate 100 [], List.range 100⟩
        (List.range 100)).1.numRows = 80 ∧
    ((train_test_split
        ⟨List.replicate 100 [], List.replicate 100 [], List.range 100⟩
        (List.range 100)).2.labels ++
      (train_test_split
        ⟨List.replicate 100 [], List.replicate 100 [], List.range 100⟩
        (List.range 100)).1.labels).Perm (List.range 100) := by
  have h := C6_split_partition
    ⟨List.replicate 100 [], List.replicate 100 [], List.range 100⟩
    (List.range 100) (by simp [HFDataset.numRows]) (by simp) (List.Perm.refl _)
  exact ⟨h.1, h.2.1, h.2.2.2.2⟩

/-- Counterexample to C8 as stated: the sequence of operations performed
DOES depend on the data encountered.  A response missing the `rows` key
aborts the run after the fetch, giving a different step sequence than a
well-formed response; moreover the pad-token conditional of cell 9 selects
between two control-flow paths, so a pretrained tokenizer that already has
a pad token yields a different operation sequence as well. -/
theorem C8_counterexample :
    (run (mkEnv respGood tokNoPad [0, 1])).trace
      ≠ (run (mkEnv respNoRows tokNoPad [0, 1])).trace ∧
    (run (mkEnv respGood tokNoPad [0, 1])).trace
      ≠ (run (mkEnv respGood tokWithPad [0, 1])).trace := by
  exact ⟨by decide, by decide⟩

/-- C8 (amended): the workflow is a linear script whose control flow has
exactly two data-dependent points, the abort of the remaining steps when an
uncaught exception is raised and the conditional pad-token addition inside
the tokenization cell; apart from these, the operation sequence is the same
for every input: any two runs in which extraction succeeds and whose
pretrained tokenizers agree on pad-token presence perform identical step
sequences, whatever data was fetched. -/
theorem C8_linear_modulo_pad_and_errors (env₁ env₂ : Env)
    {t₁ t₂ : List String} {l₁ l₂ : List Nat}
    (h₁t : extractTexts (env₁.http theUrl) = .ok t₁)
    (h₁l : extractLabels (env₁.http theUrl) = .ok l₁)
    (h₂t : extractTexts (env₂.http theUrl) = .ok t₂)
    (h₂l : extractLabels (env₂.http theUrl) = .ok l₂)
    (hpad : env₁.pretrainedTok.padToken.isNone = env₂.pretrainedTok.padToken.isNone) :
    (run env₁).trace = (run env₂).trace := by
  rw [run_trace_of_ok env₁ h₁t h₁l, run_trace_of_ok env₂ h₂t h₂l, hpad]

/-- Witness for the amended C8: two environments with different fetched
data (and different split permutations) perform the same step sequence. -/
theorem C8_linear_modulo_pad_and_errors_witness :
    (run (mkEnv respGood tokNoPad [0, 1])).trace
      = (run (mkEnv respGoodExtra tokNoPad [1, 0])).trace := by
  exact C8_linear_modulo_pad_and_errors
    (mkEnv respGood tokNoPad [0, 1]) (mkEnv respGoodExtra tokNoPad [1, 0])
    rfl rfl rfl rfl rfl

/-- C9: after cell 13 the model and tokenizer agree on padding: the model
config's `pad_token_id` equals the (possibly pad-extended) tokenizer's
`pad_token_id`, the embedding table has exactly `len(tokenizer)` rows, and
the `'[PAD]'` token is added only when the pretrained tokenizer has no pad
token, the vocabulary changing by at most the appended `'[PAD]'`. -/
theorem C9_pad_alignment (bv : Nat) (tok0 : Tokenizer) :
    (configureModel bv (addPadIfMissing tok0)).config.pad_token_id
        = (addPadIfMissing tok0).padTokenId
    ∧ (configureModel bv (addPadIfMissing tok0)).embeddingRows
        = (addPadIfMissing tok0).vocab.length
    ∧ (tok0.padToken.isSome → addPadIfMissing tok0 = tok0)
    ∧ (tok0.padToken = none →
        (addPadIfMissing tok0).padToken = some "[PAD]" ∧
        ((addPadIfMissing tok0).vocab = tok0.vocab ∨
          (addPadIfMissing tok0).vocab = tok0.vocab ++ ["[PAD]"])) := by
  refine ⟨rfl, rfl, ?_, ?_⟩
  · intro h
    obtain ⟨v, hv⟩ := Option.isSome_iff_exists.mp h
    simp [addPadIfMissing, hv]
  · intro h
    simp only [addPadIfMissing, h, Option.isNone_none, if_true]
    constructor
    · trivial
    · by_cases hmem : "[PAD]" ∈ tok0.vocab
      · left; simp [hmem]
      · right; simp [hmem]

/-- Witness for C9 at the pad-free tokenizer `tokNoPad`. -/
theorem C9_pad_alignment_witness :
    (configureModel 50257 (addPadIfMissing tokNoPad)).config.pad_token_id
        = (addPadIfMissing tokNoPad).padTokenId ∧
    (addPadIfMissing tokNoPad).padToken = some "[PAD]" ∧
    (addPadIfMissing tokNoPad).vocab = tokNoPad.vocab ++ ["[PAD]"] := by
  have h := C9_pad_alignment 50257 tokNoPad
  refine ⟨h.1, (h.2.2.2 rfl).1, ?_⟩
  rcases (h.2.2.2 rfl).2 with hv | hv
  · exact absurd hv (by decide)
  · exact hv

/-- C10: the train/eval split is not a function of the fetched data: the
permutation drawn by the unseeded shuffle is a free input of the embedding,
and two valid permutations on byte-identical responses (identical `http`
maps, tokenizer, and base vocabulary) put different examples in the train
split. -/
theorem C10_split_nondeterministic :
    (mkEnv respGood tokNoPad [0, 1]).http = (mkEnv respGood tokNoPad [1, 0]).http ∧
    (mkEnv respGood tokNoPad [0, 1]).pretrainedTok
      = (mkEnv respGood tokNoPad [1, 0]).pretrainedTok ∧
    (mkEnv respGood tokNoPad [0, 1]).perm.Perm
      (List.range (mkEnv respGood tokNoPad [0, 1]).perm.length) ∧
    (mkEnv respGood tokNoPad [1, 0]).perm.Perm
      (List.range (mkEnv respGood tokNoPad [1, 0]).perm.length) ∧
    trainLabels (run (mkEnv respGood tokNoPad [0, 1]))
      ≠ trainLabels (run (mkEnv respGood tokNoPad [1, 0])) := by
  exact ⟨rfl, rfl, by decide, by decide, by decide⟩

end FineTuneGPTNeo
